import Mathlib

/-!
Shallow embedding of `src/temporal/main.py` (class `TemporalObject`) from the
repository `Dooders/TemporalObject`, together with a model of the imported
`temporal.util.LimitedDict`, whose source is not in the repository snapshot and
is therefore modelled from the specification (section 4.1, BoundedIdentifierMap).

Conventions of the embedding:
  * A Python `deque(maxlen=d)` is a `List` kept oldest-to-newest; an append that
    overflows `maxlen` drops elements from the head (`dequeAppend`).
  * `temporal_depth = None` is `Option.none`; an `int` depth `d` is `some d`.
  * Python exceptions raised by indexing are an `Except PyErr` result.
  * The `uuid` default of `update` is an external source of identifiers; the
    embedding takes the identifier as an explicit argument (the specification,
    section 9, asks for exactly this injection of the generator), so a run of
    `update` calls is a list of `(identifier, state)` pairs.
  * Snapshot states are an arbitrary type `α`; for the field accessor `get`
    a state is an association list `List (String × V)`, the embedding of a
    Python dict as far as `in` and `[]` observe it.
-/

namespace Temporal

/-- Errors raised by the Python code: `IndexError` from positional indexing or
from `current` on an empty buffer, `TypeError` from an unsupported index type. -/
inductive PyErr where
  | indexOutOfRange
  | invalidType
  deriving DecidableEq, Repr

/-- Append `x` to a Python `deque` with `maxlen`: the element goes to the tail
and the head is discarded while the length exceeds `maxlen`. `maxlen = none` is
an unbounded deque; `deque(maxlen=0)` keeps nothing. -/
def dequeAppend (maxlen : Option Nat) (buf : List α) (x : α) : List α :=
  match maxlen with
  | none => buf ++ [x]
  | some m => (buf ++ [x]).drop (buf.length + 1 - m)

/-- Modelled from the spec: `temporal.util.LimitedDict` is imported by
`src/temporal/main.py` but its source file is missing from the snapshot.
Section 4.1 of the specification (BoundedIdentifierMap) describes it: a
key-value mapping with an optional maximum entry count, kept in insertion
order, evicting oldest-inserted entries when a new key would exceed the count;
a falsy capacity (`None` or `0`) means unbounded (sections 4.1 and 9).
`entries` is the insertion-ordered association list, oldest first. -/
structure LimitedDict (α : Type) where
  limit : Option Nat
  entries : List (String × α)
  deriving DecidableEq, Repr

/-- Modelled from the spec: `set(key, value)` inserts or overwrites; only the
insertion of a new key can evict, and it evicts oldest-inserted entries first
until the bound holds; a falsy bound never evicts. -/
def LimitedDict.set (d : LimitedDict α) (k : String) (v : α) : LimitedDict α :=
  if (d.entries.map Prod.fst).contains k then
    { d with entries := d.entries.map fun p => if p.1 = k then (k, v) else p }
  else
    match d.limit with
    | none => { d with entries := d.entries ++ [(k, v)] }
    | some 0 => { d with entries := d.entries ++ [(k, v)] }
    | some (m + 1) => { d with entries := dequeAppend (some (m + 1)) d.entries (k, v) }

/-- Modelled from the spec: `get(key, default)` returns the value for `key` or
the default, never failing. The no-value default used by the caller
`_get_by_temporal_id` is `None`, so the result is an `Option`. -/
def LimitedDict.get (d : LimitedDict α) (k : String) : Option α :=
  d.entries.lookup k

/-- Modelled from the spec: membership test of the identifier map. -/
def LimitedDict.hasKey (d : LimitedDict α) (k : String) : Bool :=
  (d.entries.map Prod.fst).contains k

/-- The state of a `TemporalObject`: the rolling deque `_buffer` (kept with its
`maxlen`, the `temporal_depth` given at construction) and the `_id_index`
`LimitedDict`. -/
structure TemporalObject (α : Type) where
  temporal_depth : Option Nat
  buffer : List α
  idIndex : LimitedDict α
  deriving DecidableEq, Repr

/-- `TemporalObject.__init__`: an empty deque with `maxlen = temporal_depth`
and a `LimitedDict(temporal_depth)`. -/
def TemporalObject.init (temporal_depth : Option Nat) : TemporalObject α :=
  { temporal_depth := temporal_depth
    buffer := []
    idIndex := { limit := temporal_depth, entries := [] } }

/-- `TemporalObject._add`: store the state in the id index and append it to the
buffer. -/
def TemporalObject._add (t : TemporalObject α) (id : String) (state : α) :
    TemporalObject α :=
  { t with
    idIndex := t.idIndex.set id state
    buffer := dequeAppend t.temporal_depth t.buffer state }

/-- `TemporalObject.update`: add the state under `temporal_id` and return the
identifier used. The `uuid` default is the injected identifier argument. -/
def TemporalObject.update (t : TemporalObject α) (object_state : α)
    (temporal_id : String) : TemporalObject α × String :=
  (t._add temporal_id object_state, temporal_id)

/-- Run a sequence of `update` calls, each given as `(temporal_id, state)`. -/
def runUpdates : TemporalObject α → List (String × α) → TemporalObject α
  | t, [] => t
  | t, u :: us => runUpdates (t.update u.2 u.1).1 us

/-- `TemporalObject.__len__`: the number of states in the buffer. -/
def TemporalObject.len (t : TemporalObject α) : Nat :=
  t.buffer.length

/-- `TemporalObject.__contains__`: whether the key is in the id index. -/
def TemporalObject.hasId (t : TemporalObject α) (key : String) : Bool :=
  t.idIndex.hasKey key

/-- `TemporalObject._get_by_temporal_id`: `self._id_index.get(temporal_id, None)`. -/
def TemporalObject._get_by_temporal_id (t : TemporalObject α)
    (temporal_id : String) : Option α :=
  t.idIndex.get temporal_id

/-- The integer branch of `TemporalObject.__getitem__`: a negative index is
replaced by its absolute value, an index at or past the buffer length raises
`IndexError`, and otherwise `self._buffer[-1 - index]` is returned, the
element `index` places back from the most recent one. -/
def TemporalObject.getIdx (t : TemporalObject α) (index : Int) :
    Except PyErr α :=
  let i : Nat := index.natAbs
  if h : i < t.buffer.length then
    .ok (t.buffer.reverse.get ⟨i, by simpa using h⟩)
  else
    .error .indexOutOfRange

/-- The string branch of `TemporalObject.__getitem__`: lookup by temporal id,
total, returning `none` when the identifier is absent. -/
def TemporalObject.getStr (t : TemporalObject α) (key : String) : Option α :=
  t._get_by_temporal_id key

/-- Normalisation of the start of a Python slice `[s:]` by `slice.indices(L)`
with positive step: a negative start counts from the end and clamps at `0`, a
nonnegative one clamps at `L`. -/
def pySliceStart (L : Nat) (s : Int) : Nat :=
  if s < 0 then L - s.natAbs else min s.toNat L

/-- The slice branch of `TemporalObject.__getitem__` for the slices the class
itself builds, `self[s:]` (step 1, no stop): `[self._buffer[i] for i in
range(start, L)]` with `start` from `slice.indices`, hence a clamped drop and
never an error. -/
def TemporalObject.getSliceFrom (t : TemporalObject α) (s : Int) : List α :=
  t.buffer.drop (pySliceStart t.buffer.length s)

/-- `TemporalObject.recent`: `self[-n:]`. -/
def TemporalObject.recent (t : TemporalObject α) (n : Int) : List α :=
  t.getSliceFrom (-n)

/-- `TemporalObject.current`: `self._buffer[-1]`, an `IndexError` on an empty
buffer. -/
def TemporalObject.current (t : TemporalObject α) : Except PyErr α :=
  match t.buffer.getLast? with
  | some v => .ok v
  | none => .error .indexOutOfRange

/-- `TemporalObject.get`: field access on the snapshot at `relative_index`,
`self[relative_index][key] if key in self[relative_index] else default`; an
`IndexError` of the positional access propagates. A snapshot dict is embedded
as an association list. -/
def TemporalObject.get (t : TemporalObject (List (String × V))) (key : String)
    (relative_index : Int) (default : V) : Except PyErr V :=
  match t.getIdx relative_index with
  | .error e => .error e
  | .ok snap =>
    .ok (match snap.lookup key with
         | some v => v
         | none => default)

/-- Number of leading updates evicted from the sequential buffer after `N`
updates at a given capacity: an unbounded history evicts nothing, a bounded
one keeps the last `C`. The retained window after `N` updates is the update
list with its first `evicted cap N` elements dropped. -/
def evicted (cap : Option Nat) (N : Nat) : Nat :=
  match cap with
  | none => 0
  | some C => N - C

/-! Helper lemmas about the deque, the id index and association-list lookup. -/

lemma length_dequeAppend_some (m : Nat) (b : List α) (x : α) :
    (dequeAppend (some m) b x).length = min (b.length + 1) m := by
  simp [dequeAppend]
  omega

lemma foldl_dequeAppend_none (xs b : List α) :
    xs.foldl (dequeAppend none) b = b ++ xs := by
  induction xs generalizing b with
  | nil => simp
  | cons x xs ih => simp [List.foldl_cons, dequeAppend, ih]

lemma foldl_dequeAppend_some (C : Nat) (xs : List α) :
    ∀ b : List α, b.length ≤ C →
      xs.foldl (dequeAppend (some C)) b
        = (b ++ xs).drop (b.length + xs.length - C) := by
  induction xs with
  | nil =>
    intro b hb
    simp [Nat.sub_eq_zero_of_le hb]
  | cons x xs ih =>
    intro b hb
    rw [List.foldl_cons]
    have hlen : (dequeAppend (some C) b x).length = min (b.length + 1) C :=
      length_dequeAppend_some C b x
    rw [ih _ (by omega)]
    show (((b ++ [x]).drop (b.length + 1 - C) ++ xs)).drop _ = _
    rw [← List.drop_append_of_le_length (by simp), List.drop_drop]
    simp only [List.append_assoc, List.singleton_append, List.length_append,
        List.length_cons, List.length_drop]
    congr 1
    omega

lemma map_fst_dequeAppend (m : Option Nat) (l : List (String × α))
    (p : String × α) :
    (dequeAppend m l p).map Prod.fst = dequeAppend m (l.map Prod.fst) p.1 := by
  cases m <;> simp [dequeAppend, List.map_drop]

lemma dequeAppend_sublist (m : Option Nat) (b : List α) (x : α) :
    (dequeAppend m b x).Sublist (b ++ [x]) := by
  cases m with
  | none => exact List.Sublist.refl _
  | some m => exact List.drop_sublist _ _

lemma lookup_eq_some_of_mem_of_nodup {l : List (String × α)} {k : String}
    {v : α} (hnd : (l.map Prod.fst).Nodup) (hm : (k, v) ∈ l) :
    l.lookup k = some v := by
  induction l with
  | nil => cases hm
  | cons p l ih =>
    obtain ⟨pk, pv⟩ := p
    rcases List.mem_cons.mp hm with hm | hm
    · injection hm with h1 h2
      subst h1
      subst h2
      simp [List.lookup_cons]
    · have hk : k ∈ l.map Prod.fst := List.mem_map_of_mem Prod.fst hm
      have hne : k ≠ pk := by
        rintro rfl
        exact (List.nodup_cons.mp hnd).1 hk
      rw [List.lookup_cons, beq_false_of_ne hne]
      exact ih (List.nodup_cons.mp hnd).2 hm

lemma lookup_eq_none_of_not_mem {l : List (String × α)} {k : String}
    (hk : k ∉ l.map Prod.fst) : l.lookup k = none := by
  induction l with
  | nil => rfl
  | cons p l ih =>
    obtain ⟨pk, pv⟩ := p
    simp only [List.map_cons, List.mem_cons, not_or] at hk
    rw [List.lookup_cons, beq_false_of_ne hk.1]
    exact ih hk.2

lemma contains_eq_true_iff (l : List String) (k : String) :
    l.contains k = true ↔ k ∈ l := by
  induction l with
  | nil => simp
  | cons a l ih => simp [List.contains_cons, ih]

lemma LimitedDict.limit_set (d : LimitedDict α) (k : String) (v : α) :
    (d.set k v).limit = d.limit := by
  unfold LimitedDict.set
  split
  · rfl
  · split <;> rfl

lemma LimitedDict.set_fresh {d : LimitedDict α} {k : String} (v : α) (m : Nat)
    (hm : d.limit = some (m + 1)) (hk : k ∉ d.entries.map Prod.fst) :
    (d.set k v).entries = dequeAppend (some (m + 1)) d.entries (k, v) := by
  have hc : (d.entries.map Prod.fst).contains k = false := by
    rw [← Bool.not_eq_true, contains_eq_true_iff]
    exact hk
  unfold LimitedDict.set
  rw [if_neg (by rw [hc]; exact Bool.false_ne_true), hm]

lemma update_fst (t : TemporalObject α) (u : String × α) :
    (t.update u.2 u.1).1 = t._add u.1 u.2 := rfl

lemma runUpdates_depth (us : List (String × α)) :
    ∀ t : TemporalObject α,
      (runUpdates t us).temporal_depth = t.temporal_depth := by
  induction us with
  | nil => intro t; rfl
  | cons u us ih =>
    intro t
    rw [runUpdates, ih]
    rfl

lemma runUpdates_limit (us : List (String × α)) :
    ∀ t : TemporalObject α,
      (runUpdates t us).idIndex.limit = t.idIndex.limit := by
  induction us with
  | nil => intro t; rfl
  | cons u us ih =>
    intro t
    rw [runUpdates, ih]
    exact LimitedDict.limit_set ..

lemma runUpdates_buffer (us : List (String × α)) :
    ∀ t : TemporalObject α,
      (runUpdates t us).buffer
        = (us.map Prod.snd).foldl (dequeAppend t.temporal_depth) t.buffer := by
  induction us with
  | nil => intro t; rfl
  | cons u us ih =>
    intro t
    rw [runUpdates, ih]
    rfl

lemma runUpdates_entries (C : Nat) (us : List (String × α)) :
    ∀ t : TemporalObject α,
      t.idIndex.limit = some (C + 1) →
      ((t.idIndex.entries.map Prod.fst) ++ us.map Prod.fst).Nodup →
      (runUpdates t us).idIndex.entries
        = us.foldl (dequeAppend (some (C + 1))) t.idIndex.entries := by
  induction us with
  | nil =>
    intro t _ _
    rfl
  | cons u us ih =>
    intro t hlim hnd
    have hdisj := (List.nodup_append.mp hnd).2.2
    have hk : u.1 ∉ t.idIndex.entries.map Prod.fst := fun hmem =>
      hdisj hmem (by simp)
    have hstep : ((t.update u.2 u.1).1).idIndex.entries
        = dequeAppend (some (C + 1)) t.idIndex.entries u := by
      show (t.idIndex.set u.1 u.2).entries = _
      rw [LimitedDict.set_fresh u.2 C hlim hk]
    rw [runUpdates, List.foldl_cons]
    have hlim' : ((t.update u.2 u.1).1).idIndex.limit = some (C + 1) := by
      rw [show ((t.update u.2 u.1).1).idIndex = t.idIndex.set u.1 u.2 from rfl,
        LimitedDict.limit_set, hlim]
    have hnd' : ((((t.update u.2 u.1).1).idIndex.entries.map Prod.fst)
        ++ us.map Prod.fst).Nodup := by
      have hsub : ((t.update u.2 u.1).1).idIndex.entries.Sublist
          (t.idIndex.entries ++ [u]) := by
        rw [hstep]
        exact dequeAppend_sublist ..
      have hsubm : (((t.update u.2 u.1).1).idIndex.entries.map Prod.fst
            ++ us.map Prod.fst).Sublist
          ((t.idIndex.entries.map Prod.fst ++ [u.1]) ++ us.map Prod.fst) := by
        apply List.Sublist.append _ (List.Sublist.refl _)
        simpa using hsub.map Prod.fst
      apply hsubm.nodup
      simpa [List.append_assoc] using hnd
    rw [ih _ hlim' hnd', hstep]

lemma runUpdates_init_buffer (C : Nat) (us : List (String × α)) :
    (runUpdates (TemporalObject.init (some C)) us).buffer
      = (us.map Prod.snd).drop (us.length - C) := by
  rw [runUpdates_buffer]
  show (us.map Prod.snd).foldl (dequeAppend (some C)) [] = _
  rw [foldl_dequeAppend_some C _ [] (by simp)]
  simp

lemma runUpdates_init_buffer_none (us : List (String × α)) :
    (runUpdates (TemporalObject.init none) us).buffer = us.map Prod.snd := by
  rw [runUpdates_buffer]
  exact foldl_dequeAppend_none ..

lemma runUpdates_init_entries (C : Nat) (hC : 0 < C) (us : List (String × α))
    (hnd : (us.map Prod.fst).Nodup) :
    (runUpdates (TemporalObject.init (some C)) us).idIndex.entries
      = us.drop (us.length - C) := by
  obtain ⟨m, rfl⟩ : ∃ m, C = m + 1 := ⟨C - 1, by omega⟩
  rw [runUpdates_entries m us (TemporalObject.init (some (m + 1))) rfl
    (by simpa using hnd)]
  show us.foldl (dequeAppend (some (m + 1))) [] = _
  rw [foldl_dequeAppend_some (m + 1) _ [] (by simp)]
  simp

lemma LimitedDict.set_fresh_none {d : LimitedDict α} {k : String} (v : α)
    (hm : d.limit = none) (hk : k ∉ d.entries.map Prod.fst) :
    (d.set k v).entries = d.entries ++ [(k, v)] := by
  have hc : (d.entries.map Prod.fst).contains k = false := by
    rw [← Bool.not_eq_true, contains_eq_true_iff]
    exact hk
  unfold LimitedDict.set
  rw [if_neg (by rw [hc]; exact Bool.false_ne_true), hm]

lemma runUpdates_entries_none (us : List (String × α)) :
    ∀ t : TemporalObject α,
      t.idIndex.limit = none →
      ((t.idIndex.entries.map Prod.fst) ++ us.map Prod.fst).Nodup →
      (runUpdates t us).idIndex.entries = t.idIndex.entries ++ us := by
  induction us with
  | nil =>
    intro t _ _
    simp [runUpdates]
  | cons u us ih =>
    intro t hlim hnd
    have hdisj := (List.nodup_append.mp hnd).2.2
    have hk : u.1 ∉ t.idIndex.entries.map Prod.fst := fun hmem =>
      hdisj hmem (by simp)
    have hstep : ((t.update u.2 u.1).1).idIndex.entries
        = t.idIndex.entries ++ [u] := by
      show (t.idIndex.set u.1 u.2).entries = _
      rw [LimitedDict.set_fresh_none u.2 hlim hk]
    rw [runUpdates]
    have hlim' : ((t.update u.2 u.1).1).idIndex.limit = none := by
      rw [show ((t.update u.2 u.1).1).idIndex = t.idIndex.set u.1 u.2 from rfl,
        LimitedDict.limit_set, hlim]
    have hnd' : ((((t.update u.2 u.1).1).idIndex.entries.map Prod.fst)
        ++ us.map Prod.fst).Nodup := by
      rw [hstep]
      simpa [List.append_assoc] using hnd
    rw [ih _ hlim' hnd', hstep, List.append_assoc]
    rfl

lemma runUpdates_init_entries_all (cap : Option Nat) (hcap : cap ≠ some 0)
    (us : List (String × α)) (hnd : (us.map Prod.fst).Nodup) :
    (runUpdates (TemporalObject.init cap) us).idIndex.entries
      = us.drop (evicted cap us.length) := by
  match cap with
  | none =>
    rw [show evicted none us.length = 0 from rfl, List.drop_zero]
    rw [runUpdates_entries_none us (TemporalObject.init none) rfl
      (by simpa using hnd)]
    rfl
  | some 0 => exact absurd rfl hcap
  | some (C + 1) =>
    exact runUpdates_init_entries (C + 1) (by omega) us hnd

lemma runUpdates_init_buffer_all (cap : Option Nat) (us : List (String × α)) :
    (runUpdates (TemporalObject.init cap) us).buffer
      = (us.map Prod.snd).drop (evicted cap us.length) := by
  match cap with
  | none =>
    rw [show evicted none us.length = 0 from rfl, List.drop_zero]
    exact runUpdates_init_buffer_none us
  | some C => exact runUpdates_init_buffer C us

/-! Claim theorems. -/

/-- C1: for every positive capacity `C` fixed at construction and every
sequence of `update` calls, `length()` never exceeds `C`, and the buffer
retains exactly the `min(C, N)` most recently added snapshots in
oldest-to-newest insertion order, the oldest being silently discarded on each
overflowing append. -/
theorem C1_capacity_bound (C : Nat) (hC : 0 < C) (us : List (String × α)) :
    (runUpdates (TemporalObject.init (some C)) us).len ≤ C ∧
    (runUpdates (TemporalObject.init (some C)) us).buffer
      = (us.map Prod.snd).drop (us.length - C) := by
  refine ⟨?_, runUpdates_init_buffer C us⟩
  show (runUpdates (TemporalObject.init (some C)) us).buffer.length ≤ C
  rw [runUpdates_init_buffer C us]
  simp only [List.length_drop, List.length_map]
  omega

/-- Witness for C1 at capacity 2 and three updates. -/
theorem C1_capacity_bound_witness :
    0 < 2 ∧
    ((runUpdates (TemporalObject.init (some 2))
        [("a", (1 : Nat)), ("b", 2), ("c", 3)]).len ≤ 2 ∧
      (runUpdates (TemporalObject.init (some 2))
        [("a", (1 : Nat)), ("b", 2), ("c", 3)]).buffer
        = ([("a", (1 : Nat)), ("b", 2), ("c", 3)].map Prod.snd).drop
            ([("a", (1 : Nat)), ("b", 2), ("c", 3)].length - 2)) :=
  ⟨by decide, C1_capacity_bound 2 (by decide) [("a", (1 : Nat)), ("b", 2), ("c", 3)]⟩

/-- C2 counterexample: the consistency claim fails for a sequence of `update`
calls that reuses an identifier. With capacity 2 and updates
`("a", 1), ("b", 2), ("b", 3)`, identifier `"a"` is still retrievable although
its snapshot `1` has been evicted from the sequential buffer: the buffer holds
the snapshots of the two `"b"` updates only. -/
theorem C2_consistency_cex :
    (runUpdates (TemporalObject.init (some 2))
        [("a", (1 : Nat)), ("b", 2), ("b", 3)]).hasId "a" = true ∧
    (runUpdates (TemporalObject.init (some 2))
        [("a", (1 : Nat)), ("b", 2), ("b", 3)]).buffer = [2, 3] ∧
    1 ∉ (runUpdates (TemporalObject.init (some 2))
        [("a", (1 : Nat)), ("b", 2), ("b", 3)]).buffer := by
  decide

/-- C2 amended: for a history of unbounded (`None`/absent) or positive
capacity, after any sequence of `update` calls with pairwise distinct
identifiers (and no direct mutation of the identifier map), the identifiers
retrievable from the identifier map are exactly the identifiers of the
retained updates, whose snapshots are exactly the buffer contents; in
particular an identifier is retrievable iff it belongs to the retained
window. Capacity `0` is excluded: there the identifier map is unbounded while
the buffer retains nothing, so the two sides disagree after one update. -/
theorem C2_consistency (cap : Option Nat) (hcap : cap ≠ some 0)
    (us : List (String × α)) (hnd : (us.map Prod.fst).Nodup) :
    ((runUpdates (TemporalObject.init cap) us).idIndex.entries.map Prod.fst
        = (us.map Prod.fst).drop (evicted cap us.length)) ∧
    ((runUpdates (TemporalObject.init cap) us).buffer
        = (us.map Prod.snd).drop (evicted cap us.length)) ∧
    (∀ k, (runUpdates (TemporalObject.init cap) us).hasId k = true ↔
        k ∈ (us.map Prod.fst).drop (evicted cap us.length)) := by
  have he := runUpdates_init_entries_all cap hcap us hnd
  have hkeys : (runUpdates (TemporalObject.init cap) us).idIndex.entries.map
      Prod.fst = (us.map Prod.fst).drop (evicted cap us.length) := by
    rw [he, List.map_drop]
  refine ⟨hkeys, runUpdates_init_buffer_all cap us, fun k => ?_⟩
  show ((runUpdates (TemporalObject.init cap) us).idIndex.entries.map
      Prod.fst).contains k = true ↔ _
  rw [contains_eq_true_iff, hkeys]

/-- Witness for C2 at capacity 2 with distinct identifiers a, b, c: identifier
`"a"` of the evicted first update is no longer retrievable. -/
theorem C2_consistency_witness :
    ((some 2 : Option Nat) ≠ some 0 ∧
      ([("a", (1 : Nat)), ("b", 2), ("c", 3)].map Prod.fst).Nodup) ∧
    (runUpdates (TemporalObject.init (some 2))
        [("a", (1 : Nat)), ("b", 2), ("c", 3)]).hasId "a" = false := by
  refine ⟨⟨by decide, by decide⟩, ?_⟩
  have h := (C2_consistency (some 2) (by decide)
    [("a", (1 : Nat)), ("b", 2), ("c", 3)] (by decide)).2.2 "a"
  revert h
  decide

/-- C3 counterexample: the round-trip claim fails when an identifier is reused
by a later `update`. On an unbounded history, after `update(1, "a")` and
`update(2, "a")`, snapshot `1` is still within the retained window (the buffer
is `[1, 2]`), but indexing by its identifier `"a"` returns `2`, not the
snapshot `1` that was passed to the first `update`. -/
theorem C3_roundtrip_cex :
    (runUpdates (TemporalObject.init none) [("a", (1 : Nat)), ("a", 2)]).buffer
        = [1, 2] ∧
    (runUpdates (TemporalObject.init none)
        [("a", (1 : Nat)), ("a", 2)]).hasId "a" = true ∧
    (runUpdates (TemporalObject.init none)
        [("a", (1 : Nat)), ("a", 2)])._get_by_temporal_id "a" ≠ some 1 := by
  decide

/-- C3 amended: for a history of any capacity (unbounded, zero or positive)
and any sequence of `update` calls with pairwise distinct identifiers, every
update `(id, v)` still within the retained window has `contains(id)` true and
identifier lookup returning exactly the snapshot `v` that was passed to
`update`. At capacity `0` the retained window is empty and the statement is
vacuous. -/
theorem C3_roundtrip (cap : Option Nat) (us : List (String × α))
    (hnd : (us.map Prod.fst).Nodup) (id : String) (v : α)
    (hmem : (id, v) ∈ us.drop (evicted cap us.length)) :
    (runUpdates (TemporalObject.init cap) us).hasId id = true ∧
    (runUpdates (TemporalObject.init cap) us)._get_by_temporal_id id
      = some v := by
  by_cases h0 : cap = some 0
  · subst h0
    rw [show evicted (some 0) us.length = us.length by
        show us.length - 0 = us.length
        omega,
      List.drop_length] at hmem
    cases hmem
  · have he := runUpdates_init_entries_all cap h0 us hnd
    have hnd' : ((runUpdates (TemporalObject.init cap) us).idIndex.entries.map
        Prod.fst).Nodup := by
      rw [he, List.map_drop]
      exact hnd.sublist (List.drop_sublist ..)
    have hmem' : (id, v) ∈
        (runUpdates (TemporalObject.init cap) us).idIndex.entries := by
      rw [he]
      exact hmem
    constructor
    · show ((runUpdates (TemporalObject.init cap) us).idIndex.entries.map
          Prod.fst).contains id = true
      rw [contains_eq_true_iff]
      exact List.mem_map_of_mem Prod.fst hmem'
    · show (runUpdates (TemporalObject.init cap) us).idIndex.entries.lookup id
          = some v
      exact lookup_eq_some_of_mem_of_nodup hnd' hmem'

/-- Witness for C3 on an unbounded history, the setting of the counterexample:
with distinct identifiers the identifier `"b"` of a retained update looks up
its exact snapshot. -/
theorem C3_roundtrip_witness :
    (([("a", (1 : Nat)), ("b", 2)].map Prod.fst).Nodup ∧
      ("b", 2) ∈ [("a", (1 : Nat)), ("b", 2)].drop
        (evicted none [("a", (1 : Nat)), ("b", 2)].length)) ∧
    ((runUpdates (TemporalObject.init none)
        [("a", (1 : Nat)), ("b", 2)]).hasId "b" = true ∧
      (runUpdates (TemporalObject.init none)
        [("a", (1 : Nat)), ("b", 2)])._get_by_temporal_id "b" = some 2) :=
  ⟨⟨by decide, by decide⟩,
    C3_roundtrip none [("a", (1 : Nat)), ("b", 2)] (by decide) "b" 2
      (by decide)⟩

/-- C4: positional indexing by a negative integer behaves identically to
indexing by its absolute value, a recency position counted back from the most
recent snapshot, and not as Python-style from-the-oldest indexing. -/
theorem C4_negative_index (t : TemporalObject α) (i : Int) (_hi : i < 0) :
    t.getIdx i = t.getIdx (-i) := by
  unfold TemporalObject.getIdx
  simp only [Int.natAbs_neg]

/-- Witness for C4 on the buffer `[A, B, C]` with `C` most recent: indexing by
`-1` and by `1` both return `B`. -/
theorem C4_negative_index_witness :
    ((-1 : Int) < 0) ∧
    ((runUpdates (TemporalObject.init none)
        [("ia", "A"), ("ib", "B"), ("ic", "C")]).getIdx (-1)
      = (runUpdates (TemporalObject.init none)
        [("ia", "A"), ("ib", "B"), ("ic", "C")]).getIdx 1) ∧
    ((runUpdates (TemporalObject.init none)
        [("ia", "A"), ("ib", "B"), ("ic", "C")]).getIdx 1
      = Except.ok "B") := by
  refine ⟨by decide, ?_, by rfl⟩
  have h := C4_negative_index (runUpdates (TemporalObject.init none)
    [("ia", "A"), ("ib", "B"), ("ic", "C")]) (-1) (by decide)
  simpa using h

/-- C5 counterexample: capacity `0` is not unbounded for the sequential
buffer. The underlying deque with `maxlen=0` keeps nothing, so after one
`update` on a capacity-0 history, `length()` is `0`, not `1` as the claim
requires. -/
theorem C5_unbounded_cex :
    (runUpdates (TemporalObject.init (some 0)) [("a", (1 : Nat))]).len = 0 ∧
    (runUpdates (TemporalObject.init (some 0)) [("a", (1 : Nat))]).len ≠ 1 := by
  decide

/-- C5 amended: constructing a history with capacity `None`/absent yields an
unbounded buffer in which entries are never evicted: after `N` updates
`length()` equals `N` and the buffer holds every snapshot in insertion order.
With capacity `0` the buffer instead retains nothing, although the identifier
map treats `0` as unbounded. -/
theorem C5_unbounded (us : List (String × α)) :
    (runUpdates (TemporalObject.init none) us).len = us.length ∧
    (runUpdates (TemporalObject.init none) us).buffer = us.map Prod.snd := by
  refine ⟨?_, runUpdates_init_buffer_none us⟩
  show (runUpdates (TemporalObject.init none) us).buffer.length = _
  rw [runUpdates_init_buffer_none us, List.length_map]

/-- C6: positional indexing raises `IndexOutOfRange` whenever the normalized
index reaches the current length, and `get(field_key, relative_index, default)`
propagates that same error rather than returning the default. -/
theorem C6_out_of_range (t : TemporalObject (List (String × V)))
    (key : String) (i : Int) (d : V) (h : t.len ≤ i.natAbs) :
    t.getIdx i = Except.error PyErr.indexOutOfRange ∧
    t.get key i d = Except.error PyErr.indexOutOfRange := by
  have h1 : t.getIdx i = Except.error PyErr.indexOutOfRange := by
    unfold TemporalObject.getIdx
    rw [dif_neg]
    show ¬ i.natAbs < t.buffer.length
    exact fun hlt => absurd h (by simp [TemporalObject.len]; omega)
  refine ⟨h1, ?_⟩
  unfold TemporalObject.get
  rw [h1]

/-- Witness for C6: position 5 on a buffer of length 2 errors, through both
the indexing operation and `get`. -/
theorem C6_out_of_range_witness :
    ((runUpdates (TemporalObject.init none)
        [("a", [("f", (1 : Int))]), ("b", [("f", 2)])]).len ≤ (5 : Int).natAbs) ∧
    ((runUpdates (TemporalObject.init none)
        [("a", [("f", (1 : Int))]), ("b", [("f", 2)])]).getIdx 5
        = Except.error PyErr.indexOutOfRange ∧
      (runUpdates (TemporalObject.init none)
        [("a", [("f", (1 : Int))]), ("b", [("f", 2)])]).get "f" 5 0
        = Except.error PyErr.indexOutOfRange) :=
  ⟨by decide, C6_out_of_range (runUpdates (TemporalObject.init none)
    [("a", [("f", (1 : Int))]), ("b", [("f", 2)])]) "f" 5 0 (by decide)⟩

/-- C7: for every `n` at least `1`, `recent(n)` is the slice of the
`min(n, length)` most recently added snapshots in oldest-to-newest order; the
slice clamps instead of failing, so an empty buffer or `n` past the length
returns all available entries and slicing never raises a range error. -/
theorem C7_recent_forgiving (t : TemporalObject α) (n : Int) (hn : 1 ≤ n) :
    t.recent n = t.buffer.drop (t.buffer.length - n.toNat) ∧
    (t.recent n).length = min n.toNat t.len := by
  have h1 : t.recent n = t.buffer.drop (t.buffer.length - n.toNat) := by
    unfold TemporalObject.recent TemporalObject.getSliceFrom pySliceStart
    rw [if_pos (by omega)]
    congr 1
    omega
  refine ⟨h1, ?_⟩
  rw [h1]
  show _ = min n.toNat t.buffer.length
  simp only [List.length_drop]
  omega

/-- Witness for C7: `recent(10)` on a 2-entry buffer returns both entries. -/
theorem C7_recent_forgiving_witness :
    ((1 : Int) ≤ 10) ∧
    ((runUpdates (TemporalObject.init none) [("ia", "A"), ("ib", "B")]).recent 10
        = (runUpdates (TemporalObject.init none)
            [("ia", "A"), ("ib", "B")]).buffer.drop
          ((runUpdates (TemporalObject.init none)
            [("ia", "A"), ("ib", "B")]).buffer.length - (10 : Int).toNat) ∧
      ((runUpdates (TemporalObject.init none)
        [("ia", "A"), ("ib", "B")]).recent 10).length
        = min (10 : Int).toNat
            (runUpdates (TemporalObject.init none) [("ia", "A"), ("ib", "B")]).len) ∧
    (runUpdates (TemporalObject.init none) [("ia", "A"), ("ib", "B")]).recent 10
      = ["A", "B"] :=
  ⟨by decide,
    C7_recent_forgiving (runUpdates (TemporalObject.init none)
      [("ia", "A"), ("ib", "B")]) 10 (by decide),
    by decide⟩

/-- C8: indexing by an identifier string that is not registered in the
identifier map returns the not-found sentinel `none`; by its type the lookup
is total and never raises. -/
theorem C8_id_lookup_total (t : TemporalObject α) (key : String)
    (h : t.hasId key = false) : t.getStr key = none := by
  show t.idIndex.entries.lookup key = none
  apply lookup_eq_none_of_not_mem
  intro hmem
  have : t.hasId key = true := by
    show (t.idIndex.entries.map Prod.fst).contains key = true
    rw [contains_eq_true_iff]
    exact hmem
  rw [h] at this
  exact Bool.false_ne_true this

/-- Witness for C8: an unregistered key on a nonempty history returns the
sentinel. -/
theorem C8_id_lookup_total_witness :
    ((runUpdates (TemporalObject.init none) [("a", (1 : Nat))]).hasId "z"
        = false) ∧
    (runUpdates (TemporalObject.init none) [("a", (1 : Nat))]).getStr "z"
        = none :=
  ⟨by decide,
    C8_id_lookup_total (runUpdates (TemporalObject.init none) [("a", (1 : Nat))])
      "z" (by decide)⟩

/-- C9: `current` on a history with zero retained entries fails with the index
error of the underlying container rather than returning a default, and on a
nonempty history it returns the most recently added snapshot, the last element
of the buffer. -/
theorem C9_current (t : TemporalObject α) :
    (t.buffer = [] → t.current = Except.error PyErr.indexOutOfRange) ∧
    (∀ h : t.buffer ≠ [], t.current = Except.ok (t.buffer.getLast h)) := by
  constructor
  · intro h
    unfold TemporalObject.current
    rw [h]
    rfl
  · intro h
    unfold TemporalObject.current
    rw [List.getLast?_eq_getLast _ h]

/-- Witness for C9: an empty history errors and a two-entry history returns
its newest snapshot. -/
theorem C9_current_witness :
    ((TemporalObject.init none : TemporalObject Nat).current
        = Except.error PyErr.indexOutOfRange) ∧
    (runUpdates (TemporalObject.init none) [("a", (1 : Nat)), ("b", 2)]).current
        = Except.ok 2 := by
  constructor
  · exact (C9_current (TemporalObject.init none)).1 rfl
  · have h := (C9_current (runUpdates (TemporalObject.init none)
      [("a", (1 : Nat)), ("b", 2)])).2 (by decide)
    exact h.trans rfl

/-- C10: `recent(0)` returns the whole buffer, oldest-to-newest, not an empty
sequence, because the slice start `-0` equals `0` and selects everything. -/
theorem C10_recent_zero (t : TemporalObject α) : t.recent 0 = t.buffer := by
  unfold TemporalObject.recent TemporalObject.getSliceFrom pySliceStart
  norm_num

end Temporal
